import Mathlib

/-!
Verification development for the schema generator of the magic-graph repository
(`src/generator.js`).  The generator walks a map of Sequelize models and produces
a GraphQL schema: per-entity output/input types, query root fields (get-by-key,
list, paginated "restful" field), mutation root fields (add/update/delete with
deep HasMany cascades and pub-sub eventing) and subscription fields.

The definitions below are a shallow embedding of that code.  External
collaborators (graphql-sequelize's `attributeFields`, Sequelize's store
operations, the pub-sub bus) are modelled at their interface contract; the
generator's own logic is translated statement by statement.  JavaScript objects
are modelled as association lists read through a latest-assignment-wins lookup,
JavaScript promises as already-settled `Except` outcomes, and JavaScript
truthiness of integer arguments (`0` is falsy) is made explicit.
-/

namespace MagicGraph

/-- Kinds of Sequelize associations distinguished by the generator
(`relation.associationType` in `generateAssociationFields` and
`getDeepAssociations`). -/
inductive AssocKind where
  | BelongsTo
  | HasMany
  | BelongsToMany
deriving DecidableEq, Repr

/-- One association descriptor: the field name it induces on the owner, its
kind (`relation.associationType`) and the target entity name
(`relation.target.name`). -/
structure Association where
  name : String
  associationType : AssocKind
  target : String
deriving DecidableEq, Repr

/-- A Sequelize model as the generator reads it: its name, the names of its
scalar attributes, its first primary-key attribute
(`model.primaryKeyAttributes[0]`) and its association descriptors. -/
structure ModelDef where
  name : String
  attributes : List String
  primaryKeyAttribute : String
  associations : List Association
deriving DecidableEq, Repr

/-- Shape of a generated GraphQL field type: a scalar attribute type, a single
reference to another entity's type, or a list of another entity's type. -/
inductive FieldType where
  | scalar
  | single (target : String)
  | list (target : String)
deriving DecidableEq, Repr

/-- Association fields of an entity (`generateAssociationFields`, generator.js
lines 31-49): BelongsToMany and HasMany become a `GraphQLList` of the target
type, BelongsTo becomes the target type itself.  The resolver attached in
output mode does not affect the field's name or type shape and is omitted. -/
def generateAssociationFields (associations : List Association) : List (String × FieldType) :=
  associations.map fun relation =>
    ⟨relation.name,
      if relation.associationType = AssocKind.BelongsToMany ∨
          relation.associationType = AssocKind.HasMany
        then FieldType.list relation.target
        else FieldType.single relation.target⟩

/-- Contract of the external `attributeFields` collaborator (graphql-sequelize):
one scalar field per model attribute, minus the attribute names listed in
`exclude`.  The `allowNull` and `cache` options affect nullability and sharing,
not which field names appear, and are omitted. -/
def attributeFields (model : ModelDef) (exclude : List String) : List (String × FieldType) :=
  (model.attributes.filter fun a => !exclude.contains a).map fun a => ⟨a, FieldType.scalar⟩

/-- Field set of the GraphQL type generated for a model
(`generateGraphQLType`, generator.js lines 59-76): scalar attribute fields with
the sensitive `contrasena` attribute excluded, merged with the association
fields.  The same field expression is used for the output type and the input
type (`isInput` only switches the GraphQL class, nullability and resolver
attachment), so both variants share this definition. -/
def generateGraphQLTypeFields (model : ModelDef) (isInput : Bool) : List (String × FieldType) :=
  attributeFields model ["contrasena"] ++ generateAssociationFields model.associations

/-- A where-condition sent to the store: exact equality on the value, or a
Sequelize `Op.like` pattern match keeping the raw value. -/
inductive WhereCond where
  | eq (value : String)
  | like (value : String)
deriving DecidableEq, Repr

/-- Arguments of the generated `<e>Restful` query field (generator.js lines
202-215): the scalar filter map `where`, `order`, `page` and `pageSize`.
Filter values are modelled by their JavaScript string coercion
`String(value)`. -/
structure RestfulArgs where
  whereArg : Option (List (String × String)) := none
  order : Option (List (List String)) := none
  page : Option Int := none
  pageSize : Option Int := none
deriving DecidableEq, Repr

/-- Options object handed to `findAndCountAll` by the restful resolver.  The
dataloader batching context entry does not influence which rows are selected
and is omitted. -/
structure FindOptions where
  whereConds : Option (List (String × WhereCond)) := none
  order : Option (List (List String)) := none
  limit : Int
  offset : Int
deriving DecidableEq, Repr

/-- JavaScript truthiness of an optional integer argument: `undefined`/absent
and `0` are falsy, every other integer is truthy. -/
def jsTruthyInt : Option Int → Bool
  | none => false
  | some n => n != 0

/-- JavaScript `v ? v : d` (equivalently `v || d`) on an optional integer
argument: the value when truthy, otherwise the default. -/
def jsOrInt (v : Option Int) (d : Int) : Int :=
  if jsTruthyInt v then v.getD 0 else d

/-- Rewrite of one filter value (generator.js lines 220-225): if
`String(value).includes('%')` the condition becomes `Op.like` on the value,
otherwise the value stays an exact-equality condition. -/
def parseWhereValue (value : String) : WhereCond :=
  if value.data.contains '%' then WhereCond.like value else WhereCond.eq value

/-- Rewrite of the whole `where` argument, key by key. -/
def parseWhere (whereArg : List (String × String)) : List (String × WhereCond) :=
  whereArg.map fun kv => ⟨kv.1, parseWhereValue kv.2⟩

/-- The options object built by the restful resolver (generator.js lines
217-236): parsed where-conditions, the order pass-through,
`limit = args.pageSize ? parseInt(args.pageSize) : 10` and
`offset = args.page ? (args.page - 1) * limit : 0`. -/
def restfulOptions (args : RestfulArgs) : FindOptions :=
  let whereConds := args.whereArg.map parseWhere
  let limit := jsOrInt args.pageSize 10
  let offset := if jsTruthyInt args.page then (args.page.getD 0 - 1) * limit else 0
  { whereConds := whereConds, order := args.order, limit := limit, offset := offset }

/-- The `info` part of the pagination envelope (`infoType`, generator.js lines
108-116 and 239-243). -/
structure Info where
  total : Int
  pageSize : Int
  page : Int
deriving DecidableEq, Repr

/-- Result of the external `findAndCountAll` store operation: row count and
selected rows. -/
structure FindAndCountResult (ρ : Type) where
  count : Int
  rows : List ρ

/-- Pagination envelope returned by the restful resolver. -/
structure RestfulResult (ρ : Type) where
  info : Info
  results : List ρ

/-- The `<e>Restful` resolver (generator.js lines 216-246): build the options,
issue `findAndCountAll` with them, and wrap the result into the envelope with
`info.pageSize = options.limit` and `info.page = args.page || 1`. -/
def restfulResolve {ρ : Type} (args : RestfulArgs)
    (findAndCountAll : FindOptions → FindAndCountResult ρ) : RestfulResult ρ :=
  let options := restfulOptions args
  let result := findAndCountAll options
  { info := { total := result.count, pageSize := options.limit, page := jsOrInt args.page 1 },
    results := result.rows }

/-- A JavaScript object observed through property lookup, as an association
list in which the most recent assignment of a key stands first. -/
abbrev JsObj (α : Type) := List (String × α)

/-- One JavaScript property assignment `obj[k] = v`: the new binding shadows
any earlier binding of `k`. -/
def objSet {α : Type} (m : JsObj α) (k : String) (v : α) : JsObj α :=
  ⟨k, v⟩ :: m

/-- JavaScript property lookup `obj[k]`: the latest assignment wins. -/
def objGet {α : Type} (m : JsObj α) (k : String) : Option α :=
  (m.find? fun p => p.1 == k).map Prod.snd

/-- Object built by assigning the pairs of `l` in order into an empty object,
as the object-literal and discovery loops of the generator do. -/
def toJsObj {α : Type} (l : List (String × α)) : JsObj α :=
  l.foldl (fun m p => objSet m p.1 p.2) []

/-- Effect of `Object.assign target source` on subsequent lookups: every own
property of `source` shadows the one of `target`. -/
def objAssign {α : Type} (target source : JsObj α) : JsObj α :=
  source ++ target

/-- Query root fields produced for one model (generator.js lines 137-251).
The `customs` object is filled first from the inline metadata overrides
(`model.options.resolvers.query`, lines 138-156, each entry either used
verbatim or wrapped — either way stored under its name), then the
directory-discovered resolver modules are assigned over it in discovery order
(lines 158-174, `customs[objQuery.name] = objQuery`).  Finally
`Object.assign(fields, generatedTrio, customs)` merges the three generated
fields — `lowerFirst.singular`, `lowerFirst.plural` and
`lowerFirst.singular ++ "Restful"` — under the customs object (lines 176-248).
Field descriptors are opaque here; only names and merge order matter. -/
def queryFieldsForModel {α : Type} (inlineResolvers dirResolvers : List (String × α))
    (singularName pluralName : String) (singularField pluralField restfulField : α) :
    JsObj α :=
  let customs := dirResolvers.foldl (fun m p => objSet m p.1 p.2)
    (inlineResolvers.foldl (fun m p => objSet m p.1 p.2) [])
  objAssign
    (toJsObj [⟨singularName, singularField⟩, ⟨pluralName, pluralField⟩,
      ⟨singularName ++ "Restful", restfulField⟩])
    customs

/-- An event published on the pub-sub bus: topic (upper-cased entity name plus
verb suffix), payload key (lower-cased entity name plus verb) and payload. -/
structure Event (π : Type) where
  topic : String
  payloadKey : String
  payload : π
deriving DecidableEq, Repr

/-- Aggregation of already-settled promise outcomes as `Promise.all` performs
it: the combined promise fulfills with all values when every outcome is
fulfilled, and rejects as soon as any outcome is rejected. -/
def promiseAll {ε α : Type} : List (Except ε α) → Except ε (List α)
  | [] => Except.ok []
  | r :: rs =>
    match r with
    | Except.ok a =>
      match promiseAll rs with
      | Except.ok as => Except.ok (a :: as)
      | Except.error e => Except.error e
    | Except.error e => Except.error e

/-- The `add<Entity>` resolver (generator.js lines 314-321): await the store's
`create`; a rejected create propagates and nothing is published; on success an
ADDED event carrying the new record is published exactly when subscriptions
are enabled, and the new record is returned.  `upperSingular` and
`lowerSingular` are the entity display names computed by the naming helper. -/
def addResolve {ρ : Type} (createResult : Except String ρ) (subscriptions : Bool)
    (upperSingular lowerSingular : String) : Except String ρ × List (Event ρ) :=
  match createResult with
  | Except.ok newObject =>
    ⟨Except.ok newObject,
      if subscriptions = true
        then [⟨upperSingular ++ "_ADDED", lowerSingular ++ "Added", newObject⟩]
        else []⟩
  | Except.error e => ⟨Except.error e, []⟩

/-- The `update<Entity>` resolver after the record was found (generator.js
lines 340-366): the promises array holds one `helper.upsertArray` outcome per
deep HasMany include whose plural field name occurs in the input
(`nestedUpserts`), plus the parent's own `object2Update.update`
(`parentUpdate`); all are created before `Promise.all` awaits them.  Only when
`Promise.all` fulfills is the UPDATED event published (with the in-memory
snapshot) and the canonical record re-fetched and returned; a rejection
propagates with nothing published. -/
def updateResolve {ρ : Type} (nestedUpserts : List (Except String Unit))
    (parentUpdate : Except String Unit) (subscriptions : Bool)
    (upperSingular lowerSingular : String) (snapshot refetched : ρ) :
    Except String ρ × List (Event ρ) :=
  match promiseAll (nestedUpserts ++ [parentUpdate]) with
  | Except.ok _ =>
    ⟨Except.ok refetched,
      if subscriptions = true
        then [⟨upperSingular ++ "_UPDATED", lowerSingular ++ "Updated", snapshot⟩]
        else []⟩
  | Except.error e => ⟨Except.error e, []⟩

/-- The `delete<Entity>` resolver (generator.js lines 375-381): the store's
`destroy` removes the rows whose primary key matches the argument and reports
how many; a DELETED event carrying the key is published exactly when a row was
removed and subscriptions are enabled; the count is returned.  The store is
modelled by the list of its primary-key values. -/
def deleteResolve (store : List Int) (primaryKeyValue : Int) (subscriptions : Bool)
    (upperSingular lowerSingular : String) : Nat × List (Event Int) :=
  let deletedRows := (store.filter fun row => row == primaryKeyValue).length
  ⟨deletedRows,
    if 0 < deletedRows ∧ subscriptions = true
      then [⟨upperSingular ++ "_DELETED", lowerSingular ++ "Deleted", primaryKeyValue⟩]
      else []⟩

/-- The model map handed to the generator, keyed by model name. -/
abbrev Models := List (String × ModelDef)

/-- Associations of a named model, `models[modelName].associations`.  A name
absent from the map has no associations (the generator is never called with a
dangling target; see the spec's build-time error handling). -/
def assocsOf (models : Models) (modelName : String) : List Association :=
  match models.lookup modelName with
  | some model => model.associations
  | none => []

/-- One node of the include tree built by `getDeepAssociations`: the target
model (identified by name; the source stores the model object
`models[relation.target.name]`) and the nested include list (the source field
is called `include`). -/
inductive IncludeTree where
  | node (model : String) (nested : List IncludeTree)
deriving Repr

/-- The deep association cascader (`getDeepAssociations`, generator.js lines
421-434), indexed by a recursion-depth budget: for every HasMany association
of the model it pushes the target model together with the target's own
recursively computed include list; BelongsTo and BelongsToMany associations
contribute nothing.  The JavaScript recursion carries no budget; the index
makes the call tree explicit, and on every input on which the JavaScript
recursion terminates the result is the common value of all sufficiently large
budgets (see the termination theorem below). -/
def getDeepAssociations (models : Models) : Nat → String → List IncludeTree
  | 0, _ => []
  | fuel + 1, modelName =>
    (assocsOf models modelName).filterMap fun relation =>
      if relation.associationType = AssocKind.HasMany then
        some (IncludeTree.node relation.target
          (getDeepAssociations models fuel relation.target))
      else
        none

/-- A rank function witnessing that the HasMany graph of a model map is
acyclic: every HasMany edge strictly decreases the rank. -/
def HasManyBound (models : Models) (rank : String → Nat) : Prop :=
  ∀ entry ∈ models, ∀ relation ∈ entry.2.associations,
    relation.associationType = AssocKind.HasMany → rank relation.target < rank entry.1

/-- Example model with no associations. -/
def modelC : ModelDef :=
  { name := "C", attributes := ["id", "name"], primaryKeyAttribute := "id",
    associations := [] }

/-- Example model with one HasMany association to `C` and one BelongsTo. -/
def modelB : ModelDef :=
  { name := "B", attributes := ["id", "contrasena", "label"], primaryKeyAttribute := "id",
    associations := [⟨"cs", AssocKind.HasMany, "C"⟩, ⟨"a", AssocKind.BelongsTo, "A"⟩] }

/-- Example model with one HasMany association to `B`. -/
def modelA : ModelDef :=
  { name := "A", attributes := ["id", "title"], primaryKeyAttribute := "id",
    associations := [⟨"bs", AssocKind.HasMany, "B"⟩] }

/-- Example entity chain `A -HasMany-> B -HasMany-> C`. -/
def chainModels : Models := [⟨"A", modelA⟩, ⟨"B", modelB⟩, ⟨"C", modelC⟩]

/-- Rank function for the example chain, decreasing along its HasMany edges. -/
def chainRank : String → Nat :=
  fun s => if s = "A" then 2 else if s = "B" then 1 else 0

/-- Example restful call with pageSize 0 and no page. -/
def argsPageSizeZero : RestfulArgs :=
  { whereArg := none, order := none, page := none, pageSize := some 0 }

/-- Example restful call with pageSize 10 and no page. -/
def argsPageSize10 : RestfulArgs :=
  { whereArg := none, order := none, page := none, pageSize := some 10 }

/-- Example restful call with page 3 and pageSize 5. -/
def argsPage3Size5 : RestfulArgs :=
  { whereArg := none, order := none, page := some 3, pageSize := some 5 }

/-- Example restful call with page 0 and pageSize 0. -/
def argsPage0Size0 : RestfulArgs :=
  { whereArg := none, order := none, page := some 0, pageSize := some 0 }

/-- Example filter map: one value with the wildcard marker, one without. -/
def whereExample : List (String × String) := [("name", "Jo%"), ("age", "30")]

/-- Example restful call carrying the example filter map. -/
def argsWildcard : RestfulArgs :=
  { whereArg := some whereExample, order := none, page := none, pageSize := none }

/-- Example association-free model with a credential attribute. -/
def modelU : ModelDef :=
  { name := "U", attributes := ["id", "contrasena", "mail"], primaryKeyAttribute := "id",
    associations := [] }

/-- A successful lookup exhibits a pair of the association list. -/
theorem lookup_mem {α β : Type} [BEq α] [LawfulBEq α] {l : List (α × β)} {a : α} {b : β}
    (h : l.lookup a = some b) : (a, b) ∈ l := by
  induction l with
  | nil => simp [List.lookup] at h
  | cons p t ih =>
    rw [List.lookup] at h
    split at h
    · next heq =>
      cases p with
      | mk k v =>
        simp at heq h
        subst heq h
        exact List.mem_cons_self _ _
    · exact List.mem_cons_of_mem _ (ih h)

/-- Every association returned by `assocsOf` belongs to the model stored under
that name in the model map. -/
theorem assocsOf_mem {models : Models} {modelName : String} {relation : Association}
    (h : relation ∈ assocsOf models modelName) :
    ∃ model, (modelName, model) ∈ models ∧ relation ∈ model.associations := by
  unfold assocsOf at h
  cases hl : models.lookup modelName with
  | none => rw [hl] at h; cases h
  | some model => rw [hl] at h; exact ⟨model, lookup_mem hl, h⟩

/-- Unfolding of the cascader at a positive budget, in filter-then-map form:
one node per HasMany association, in association order, and nothing for the
other association kinds. -/
theorem getDeepAssociations_succ (models : Models) (fuel : Nat) (modelName : String) :
    getDeepAssociations models (fuel + 1) modelName =
      ((assocsOf models modelName).filter fun relation =>
          relation.associationType == AssocKind.HasMany).map
        fun relation =>
          IncludeTree.node relation.target
            (getDeepAssociations models fuel relation.target) := by
  show List.filterMap _ _ = _
  generalize assocsOf models modelName = rels
  induction rels with
  | nil => rfl
  | cons r t ih =>
    by_cases h : r.associationType = AssocKind.HasMany
    · simp [List.filterMap_cons, List.filter_cons, h, ih]
    · simp [List.filterMap_cons, List.filter_cons, h, ih]

/-- With a rank function decreasing along HasMany edges, the cascader's value
is the same at every budget exceeding the rank of the start model. -/
theorem getDeepAssociations_stable (models : Models) (rank : String → Nat)
    (hb : HasManyBound models rank) :
    ∀ k modelName, rank modelName ≤ k → ∀ n m, rank modelName < n → rank modelName < m →
      getDeepAssociations models n modelName = getDeepAssociations models m modelName := by
  intro k
  induction k with
  | zero =>
    intro modelName hr n m hn hm
    match n, m with
    | n' + 1, m' + 1 =>
      rw [getDeepAssociations_succ, getDeepAssociations_succ]
      apply List.map_congr_left
      intro relation hrel
      rw [List.mem_filter] at hrel
      obtain ⟨hmem, hkind⟩ := hrel
      obtain ⟨model, hml, hma⟩ := assocsOf_mem hmem
      have hlt : rank relation.target < rank modelName := hb _ hml _ hma (by simpa using hkind)
      omega
  | succ k ih =>
    intro modelName hr n m hn hm
    match n, m with
    | n' + 1, m' + 1 =>
      rw [getDeepAssociations_succ, getDeepAssociations_succ]
      apply List.map_congr_left
      intro relation hrel
      rw [List.mem_filter] at hrel
      obtain ⟨hmem, hkind⟩ := hrel
      obtain ⟨model, hml, hma⟩ := assocsOf_mem hmem
      have hlt : rank relation.target < rank modelName := hb _ hml _ hma (by simpa using hkind)
      have := ih relation.target (by omega) n' m' (by omega) (by omega)
      rw [this]

/-- Assigning a list of pairs in order into an object reverses it onto the
accumulator. -/
theorem foldl_objSet_eq {α : Type} (l : List (String × α)) (m : JsObj α) :
    l.foldl (fun m p => objSet m p.1 p.2) m = l.reverse ++ m := by
  induction l generalizing m with
  | nil => rfl
  | cons p t ih =>
    simp [List.foldl_cons, objSet, ih, List.reverse_cons, List.append_assoc]

/-- Lookup in a concatenation tries the front object first. -/
theorem objGet_append {α : Type} (a b : JsObj α) (k : String) :
    objGet (a ++ b) k = (objGet a k).or (objGet b k) := by
  simp only [objGet, List.find?_append]
  cases a.find? fun p => p.1 == k <;> simp [Option.or]

/-- `promiseAll` fulfills exactly when every outcome is fulfilled. -/
theorem promiseAll_ok {ε α : Type} (l : List (Except ε α))
    (h : ∀ r ∈ l, ∃ a, r = Except.ok a) : ∃ as, promiseAll l = Except.ok as := by
  induction l with
  | nil => exact ⟨[], rfl⟩
  | cons r t ih =>
    obtain ⟨a, ha⟩ := h r (List.mem_cons_self _ _)
    obtain ⟨as, has⟩ := ih fun r hr => h r (List.mem_cons_of_mem _ hr)
    subst ha
    exact ⟨a :: as, by simp [promiseAll, has]⟩

/-- `promiseAll` rejects when any outcome is rejected. -/
theorem promiseAll_error {ε α : Type} (l : List (Except ε α)) (e : ε)
    (h : Except.error e ∈ l) : ∃ e', promiseAll l = Except.error e' := by
  induction l with
  | nil => cases h
  | cons r t ih =>
    rcases List.mem_cons.mp h with hr | ht
    · exact ⟨e, by rw [← hr]; rfl⟩
    · obtain ⟨e', he'⟩ := ih ht
      cases r with
      | error e'' => exact ⟨e'', rfl⟩
      | ok a => exact ⟨e', by simp [promiseAll, he']⟩

/-- Claim C7: for every model map and entity, the deep association cascader
returns one entry per HasMany association of the entity, in association order,
each pairing the target entity with that target's own recursively computed
cascade, and returns no entries for BelongsTo or BelongsToMany associations;
in particular for the chain A -HasMany-> B -HasMany-> C, the cascade of A
includes B and, nested under B, C. -/
theorem c7_deep_associations :
    (∀ models fuel modelName,
      getDeepAssociations models (fuel + 1) modelName =
        ((assocsOf models modelName).filter fun relation =>
            relation.associationType == AssocKind.HasMany).map
          fun relation =>
            IncludeTree.node relation.target
              (getDeepAssociations models fuel relation.target)) ∧
    getDeepAssociations chainModels 3 "A" =
      [IncludeTree.node "B" [IncludeTree.node "C" []]] := by
  refine ⟨fun models fuel modelName => getDeepAssociations_succ models fuel modelName, ?_⟩
  rfl

/-- Claim C9: the deep association cascader terminates on every entity whose
reachable HasMany graph is acyclic, which a rank function decreasing along
HasMany edges witnesses.  An entity with no HasMany associations yields the
empty sequence at every recursion budget (the base case), and above the
entity's rank the value no longer depends on the budget, so the recursion
through HasMany chains of arbitrary finite depth is well defined. -/
theorem c9_cascader_terminates (models : Models) (rank : String → Nat)
    (hb : HasManyBound models rank) :
    (∀ modelName n, (∀ relation ∈ assocsOf models modelName,
        relation.associationType ≠ AssocKind.HasMany) →
      getDeepAssociations models n modelName = []) ∧
    (∀ modelName n m, rank modelName < n → rank modelName < m →
      getDeepAssociations models n modelName = getDeepAssociations models m modelName) := by
  constructor
  · intro modelName n hno
    cases n with
    | zero => rfl
    | succ n =>
      rw [getDeepAssociations_succ]
      have hnil : ((assocsOf models modelName).filter fun relation =>
          relation.associationType == AssocKind.HasMany) = [] := by
        rw [List.filter_eq_nil_iff]
        intro relation hrel
        simpa using hno relation hrel
      rw [hnil]
      rfl
  · intro modelName n m hn hm
    exact getDeepAssociations_stable models rank hb (rank modelName) modelName
      (Nat.le_refl _) n m hn hm

/-- Witness for the termination claim on the concrete chain A, B, C: the chain
rank decreases along its HasMany edges, the cascade of A is already stable
between budgets 3 and 10, and the association-free model C yields the empty
cascade. -/
theorem c9_cascader_terminates_witness :
    HasManyBound chainModels chainRank ∧
    getDeepAssociations chainModels 3 "A" = getDeepAssociations chainModels 10 "A" ∧
    getDeepAssociations chainModels 7 "C" = [] := by
  have hb : HasManyBound chainModels chainRank := by
    unfold HasManyBound
    decide
  refine ⟨hb, ?_, ?_⟩
  · exact (c9_cascader_terminates chainModels chainRank hb).2 "A" 3 10
      (by decide) (by decide)
  · exact (c9_cascader_terminates chainModels chainRank hb).1 "C" 7 (by decide)

/-- Claim C1 fails on the code: when an inline metadata query override, a
directory-discovered resolver module and a generated query field all share the
name `x`, the merged query root resolves `x` to the directory-discovered
module — the inline override does not win. -/
theorem c1_counterexample :
    objGet (queryFieldsForModel [⟨"x", "inlineOverride"⟩] [⟨"x", "dirModule"⟩]
      "x" "xs" "genSingular" "genPlural" "genRestful") "x" = some "dirModule" ∧
    ¬ objGet (queryFieldsForModel [⟨"x", "inlineOverride"⟩] [⟨"x", "dirModule"⟩]
      "x" "xs" "genSingular" "genPlural" "genRestful") "x" = some "inlineOverride" := by
  constructor
  · decide
  · decide

/-- Claim C1 as amended: name collisions on the query root resolve with the
directory-discovered modules first, then the inline metadata overrides, then
the three generated fields — a directory-discovered resolver suppresses an
inline override of the same name (not the other way around), an inline
override still suppresses the generated field of its name, and a generated
field name is used only when no override of either layer claims it. -/
theorem c1_override_precedence {α : Type} (inlineResolvers dirResolvers : List (String × α))
    (singularName pluralName : String) (singularField pluralField restfulField : α)
    (k : String) :
    objGet (queryFieldsForModel inlineResolvers dirResolvers singularName pluralName
        singularField pluralField restfulField) k =
      (objGet (toJsObj dirResolvers) k).or
        ((objGet (toJsObj inlineResolvers) k).or
          (objGet (toJsObj [⟨singularName, singularField⟩, ⟨pluralName, pluralField⟩,
            ⟨singularName ++ "Restful", restfulField⟩]) k)) ∧
    (objGet (toJsObj dirResolvers) k = none → objGet (toJsObj inlineResolvers) k = none →
      objGet (queryFieldsForModel inlineResolvers dirResolvers singularName pluralName
          singularField pluralField restfulField) k =
        objGet (toJsObj [⟨singularName, singularField⟩, ⟨pluralName, pluralField⟩,
          ⟨singularName ++ "Restful", restfulField⟩]) k) := by
  have hmain : objGet (queryFieldsForModel inlineResolvers dirResolvers singularName
      pluralName singularField pluralField restfulField) k =
      (objGet (toJsObj dirResolvers) k).or
        ((objGet (toJsObj inlineResolvers) k).or
          (objGet (toJsObj [⟨singularName, singularField⟩, ⟨pluralName, pluralField⟩,
            ⟨singularName ++ "Restful", restfulField⟩]) k)) := by
    unfold queryFieldsForModel objAssign toJsObj
    simp only [foldl_objSet_eq, List.append_nil, List.append_assoc, objGet_append,
      Option.or_assoc]
  refine ⟨hmain, fun hdir hinl => ?_⟩
  rw [hmain, hdir, hinl]
  rfl

/-- Witness for the amended precedence claim: with no override claiming the
name, the generated singular field is found under its name. -/
theorem c1_override_precedence_witness :
    objGet (queryFieldsForModel ([] : List (String × String)) [] "e" "es"
      "generatedSingular" "generatedPlural" "generatedRestful") "e" =
      some "generatedSingular" := by
  have h := (c1_override_precedence ([] : List (String × String)) [] "e" "es"
    "generatedSingular" "generatedPlural" "generatedRestful" "e").2 (by decide) (by decide)
  rw [h]
  decide

/-- Claim C2 fails on the code at a supplied pageSize of 0: the limit issued
to the store is then the default 10, not the supplied pageSize. -/
theorem c2_counterexample :
    (restfulOptions argsPageSizeZero).limit = 10 ∧
    ¬ (restfulOptions argsPageSizeZero).limit = 0 := by
  constructor
  · decide
  · decide

/-- Claim C2 as amended: the store query is issued with limit equal to the
supplied pageSize when it is nonzero, defaulting to 10 when pageSize is
absent (or zero), and offset equal to (page − 1) × limit when page is
supplied and nonzero, with offset 0 when page is absent (or zero); the
envelope's info reports that limit as pageSize and that page (1 when page is
absent or zero); in particular pageSize=10 with no page yields offset 0 and
limit 10, and page=3 with pageSize=5 yields offset 10 and limit 5. -/
theorem c2_pagination {ρ : Type} (args : RestfulArgs)
    (findAndCountAll : FindOptions → FindAndCountResult ρ) :
    (args.pageSize = none → (restfulOptions args).limit = 10) ∧
    (∀ n, args.pageSize = some n → n ≠ 0 → (restfulOptions args).limit = n) ∧
    (args.page = none → (restfulOptions args).offset = 0) ∧
    (∀ p, args.page = some p → p ≠ 0 →
      (restfulOptions args).offset = (p - 1) * (restfulOptions args).limit) ∧
    (restfulResolve args findAndCountAll).info.pageSize = (restfulOptions args).limit ∧
    (args.page = none → (restfulResolve args findAndCountAll).info.page = 1) ∧
    (∀ p, args.page = some p → p ≠ 0 →
      (restfulResolve args findAndCountAll).info.page = p) ∧
    (restfulOptions argsPageSize10).offset = 0 ∧
    (restfulOptions argsPageSize10).limit = 10 ∧
    (restfulOptions argsPage3Size5).offset = 10 ∧
    (restfulOptions argsPage3Size5).limit = 5 := by
  refine ⟨?_, ?_, ?_, ?_, rfl, ?_, ?_, by decide, by decide, by decide, by decide⟩
  · intro h
    simp [restfulOptions, jsOrInt, jsTruthyInt, h]
  · intro n h hn
    simp [restfulOptions, jsOrInt, jsTruthyInt, h, hn]
  · intro h
    simp [restfulOptions, jsTruthyInt, h]
  · intro p h hp
    simp [restfulOptions, jsOrInt, jsTruthyInt, h, hp]
  · intro h
    simp [restfulResolve, jsOrInt, jsTruthyInt, h]
  · intro p h hp
    simp [restfulResolve, jsOrInt, jsTruthyInt, h, hp]

/-- Witness for the amended pagination claim at page=3, pageSize=5. -/
theorem c2_pagination_witness :
    (restfulOptions argsPage3Size5).limit = 5 ∧
    (restfulOptions argsPage3Size5).offset = (3 - 1) * 5 := by
  have h := @c2_pagination Unit argsPage3Size5 fun _ => ⟨0, []⟩
  constructor
  · exact h.2.1 5 rfl (by decide)
  · have ho := h.2.2.2.1 3 rfl (by decide)
    rw [ho, h.2.1 5 rfl (by decide)]

/-- Claim C3: in the restful resolver every filter key whose value contains
the wildcard marker is rewritten into a pattern-match condition on that value,
every filter key whose value contains no wildcard marker stays exact-equality,
and exactly these parsed conditions are handed to the store. -/
theorem c3_filter_wildcard (whereArg : List (String × String)) (args : RestfulArgs)
    (k v : String) :
    ((k, v) ∈ whereArg → v.data.contains '%' = true →
      (k, WhereCond.like v) ∈ parseWhere whereArg) ∧
    ((k, v) ∈ whereArg → v.data.contains '%' = false →
      (k, WhereCond.eq v) ∈ parseWhere whereArg) ∧
    (args.whereArg = some whereArg →
      (restfulOptions args).whereConds = some (parseWhere whereArg)) ∧
    (args.whereArg = none → (restfulOptions args).whereConds = none) := by
  refine ⟨fun hm hw => ?_, fun hm hw => ?_, fun h => ?_, fun h => ?_⟩
  · have hmem := List.mem_map_of_mem
      (fun kv : String × String => ((kv.1, parseWhereValue kv.2) : String × WhereCond)) hm
    have hw' : '%' ∈ v.data := by simpa using hw
    have hv : parseWhereValue v = WhereCond.like v := by simp [parseWhereValue, hw']
    rw [← hv]
    exact hmem
  · have hmem := List.mem_map_of_mem
      (fun kv : String × String => ((kv.1, parseWhereValue kv.2) : String × WhereCond)) hm
    have hw' : '%' ∉ v.data := by simpa using hw
    have hv : parseWhereValue v = WhereCond.eq v := by simp [parseWhereValue, hw']
    rw [← hv]
    exact hmem
  · simp [restfulOptions, h]
  · simp [restfulOptions, h]

/-- Witness for the wildcard claim: the value with a marker becomes a pattern
match, the one without stays exact equality, and both reach the store. -/
theorem c3_filter_wildcard_witness :
    ("name", WhereCond.like "Jo%") ∈ parseWhere whereExample ∧
    ("age", WhereCond.eq "30") ∈ parseWhere whereExample ∧
    (restfulOptions argsWildcard).whereConds = some (parseWhere whereExample) := by
  refine ⟨?_, ?_, ?_⟩
  · exact (c3_filter_wildcard whereExample argsWildcard "name" "Jo%").1
      (by decide) (by decide)
  · exact (c3_filter_wildcard whereExample argsWildcard "age" "30").2.1
      (by decide) (by decide)
  · exact (c3_filter_wildcard whereExample argsWildcard "name" "Jo%").2.2.1 rfl

/-- Claim C10: falsy integer arguments of the restful resolver are treated
the same as absent ones: a supplied pageSize of 0 yields the same options as
an absent pageSize (limit 10), a supplied page of 0 yields the same options
as an absent page (offset 0) and a reported page of 1, and no call can make
the store limit zero. -/
theorem c10_falsy_args {ρ : Type} (args : RestfulArgs)
    (findAndCountAll : FindOptions → FindAndCountResult ρ) :
    restfulOptions { args with pageSize := some 0 } =
      restfulOptions { args with pageSize := none } ∧
    (restfulOptions { args with pageSize := some 0 }).limit = 10 ∧
    restfulOptions { args with page := some 0 } =
      restfulOptions { args with page := none } ∧
    (restfulOptions { args with page := some 0 }).offset = 0 ∧
    (restfulResolve { args with page := some 0 } findAndCountAll).info.page = 1 ∧
    (restfulOptions args).limit ≠ 0 := by
  refine ⟨?_, ?_, ?_, ?_, ?_, ?_⟩
  · simp [restfulOptions, jsOrInt, jsTruthyInt]
  · simp [restfulOptions, jsOrInt, jsTruthyInt]
  · simp [restfulOptions, jsOrInt, jsTruthyInt]
  · simp [restfulOptions, jsTruthyInt]
  · simp [restfulResolve, jsOrInt, jsTruthyInt]
  · have hl : (restfulOptions args).limit = jsOrInt args.pageSize 10 := rfl
    rw [hl]
    unfold jsOrInt jsTruthyInt
    cases args.pageSize with
    | none => simp
    | some n =>
      by_cases hn : n = 0
      · subst hn
        simp
      · simp [hn]

/-- Witness for the falsy-argument claim at page=0, pageSize=0. -/
theorem c10_falsy_args_witness :
    (restfulOptions argsPage0Size0).limit = 10 ∧
    (restfulOptions argsPage0Size0).offset = 0 := by
  have h := @c10_falsy_args Unit argsPage0Size0 fun _ => ⟨0, []⟩
  exact ⟨h.2.1, h.2.2.2.1⟩

/-- Claim C4: in the update resolver the nested HasMany collection upserts
and the parent's own update are all issued and settled together; if any one
of them fails the whole mutation fails with no event published, and the
UPDATED event is published (exactly when subscriptions are enabled) only once
every one of them has settled successfully. -/
theorem c4_update_all_or_nothing {ρ : Type} (nestedUpserts : List (Except String Unit))
    (parentUpdate : Except String Unit) (subscriptions : Bool)
    (upperSingular lowerSingular : String) (snapshot refetched : ρ) :
    ((∃ e, Except.error e ∈ nestedUpserts ++ [parentUpdate]) →
      (updateResolve nestedUpserts parentUpdate subscriptions upperSingular
          lowerSingular snapshot refetched).2 = [] ∧
      ∃ e', (updateResolve nestedUpserts parentUpdate subscriptions upperSingular
          lowerSingular snapshot refetched).1 = Except.error e') ∧
    ((∀ r ∈ nestedUpserts ++ [parentUpdate], ∃ a, r = Except.ok a) →
      (updateResolve nestedUpserts parentUpdate subscriptions upperSingular
          lowerSingular snapshot refetched).1 = Except.ok refetched ∧
      (updateResolve nestedUpserts parentUpdate subscriptions upperSingular
          lowerSingular snapshot refetched).2 =
        (if subscriptions = true
          then [⟨upperSingular ++ "_UPDATED", lowerSingular ++ "Updated", snapshot⟩]
          else [])) := by
  constructor
  · rintro ⟨e, he⟩
    obtain ⟨e', he'⟩ := promiseAll_error _ e he
    unfold updateResolve
    rw [he']
    exact ⟨rfl, e', rfl⟩
  · intro h
    obtain ⟨as, has⟩ := promiseAll_ok _ h
    unfold updateResolve
    rw [has]
    exact ⟨rfl, rfl⟩

/-- Witness for the all-or-nothing update claim: one failed nested upsert
silences the event and fails the mutation, while all-successful operations
publish exactly one UPDATED event. -/
theorem c4_update_all_or_nothing_witness :
    (updateResolve [Except.ok (), Except.error "nested upsert failed"] (Except.ok ())
      true "USER" "user" (0 : Int) 1).2 = [] ∧
    (updateResolve [Except.ok ()] (Except.ok ()) true "USER" "user" (0 : Int) 1).2 =
      [⟨"USER_UPDATED", "userUpdated", 0⟩] := by
  constructor
  · exact ((c4_update_all_or_nothing [Except.ok (), Except.error "nested upsert failed"]
      (Except.ok ()) true "USER" "user" (0 : Int) 1).1
        ⟨"nested upsert failed", by simp⟩).1
  · have h := (c4_update_all_or_nothing [Except.ok ()] (Except.ok ()) true "USER" "user"
      (0 : Int) 1).2 ?_
    · rw [h.2]
      rfl
    · intro r hr
      simp only [List.mem_append, List.mem_singleton, List.mem_cons,
        List.not_mem_nil, or_false] at hr
      rcases hr with h1 | h2
      · exact ⟨(), h1⟩
      · exact ⟨(), h2⟩

/-- Claim C5: the delete resolver returns the number of affected rows — 0 or
1 for a store with unique primary keys: on a non-existent key it returns 0
and publishes nothing; on an existing key it returns 1 and, exactly when
subscriptions are enabled, publishes one DELETED event carrying that key. -/
theorem c5_delete_rows_and_event (store : List Int) (primaryKeyValue : Int)
    (subscriptions : Bool) (upperSingular lowerSingular : String)
    (hnd : store.Nodup) :
    ((deleteResolve store primaryKeyValue subscriptions upperSingular lowerSingular).1 = 0 ∨
     (deleteResolve store primaryKeyValue subscriptions upperSingular lowerSingular).1 = 1) ∧
    (primaryKeyValue ∉ store →
      deleteResolve store primaryKeyValue subscriptions upperSingular lowerSingular =
        ⟨0, []⟩) ∧
    (primaryKeyValue ∈ store →
      (deleteResolve store primaryKeyValue subscriptions upperSingular lowerSingular).1 = 1 ∧
      (subscriptions = true →
        (deleteResolve store primaryKeyValue subscriptions upperSingular lowerSingular).2 =
          [⟨upperSingular ++ "_DELETED", lowerSingular ++ "Deleted", primaryKeyValue⟩]) ∧
      (subscriptions = false →
        (deleteResolve store primaryKeyValue subscriptions upperSingular lowerSingular).2 =
          [])) := by
  have hcount : (deleteResolve store primaryKeyValue subscriptions upperSingular
      lowerSingular).1 = store.count primaryKeyValue := by
    show (store.filter fun row => row == primaryKeyValue).length = store.count primaryKeyValue
    rw [← List.countP_eq_length_filter, ← List.count_eq_countP]
  refine ⟨?_, fun hnot => ?_, fun hmem => ?_⟩
  · rw [hcount]
    by_cases hm : primaryKeyValue ∈ store
    · right
      exact List.count_eq_one_of_mem hnd hm
    · left
      exact List.count_eq_zero.mpr hm
  · have h0 : (store.filter fun row => row == primaryKeyValue).length = 0 := by
      rw [← List.countP_eq_length_filter, ← List.count_eq_countP]
      exact List.count_eq_zero.mpr hnot
    show (⟨_, _⟩ : Nat × List (Event Int)) = ⟨0, []⟩
    rw [Prod.mk.injEq]
    constructor
    · exact h0
    · simp [h0]
  · have h1 : (store.filter fun row => row == primaryKeyValue).length = 1 := by
      rw [← List.countP_eq_length_filter, ← List.count_eq_countP]
      exact List.count_eq_one_of_mem hnd hmem
    refine ⟨h1, fun hs => ?_, fun hs => ?_⟩
    · show (if 0 < (store.filter fun row => row == primaryKeyValue).length ∧
        subscriptions = true then _ else _) = _
      rw [h1, hs]
      simp
    · show (if 0 < (store.filter fun row => row == primaryKeyValue).length ∧
        subscriptions = true then _ else _) = _
      rw [h1, hs]
      simp

/-- Witness for the delete claim on the store with keys 1, 2, 3: deleting key
2 returns 1 and publishes the DELETED event carrying 2; deleting key 5
returns 0 and publishes nothing. -/
theorem c5_delete_rows_and_event_witness :
    (deleteResolve [1, 2, 3] 2 true "USER" "user").1 = 1 ∧
    (deleteResolve [1, 2, 3] 2 true "USER" "user").2 =
      [⟨"USER_DELETED", "userDeleted", 2⟩] ∧
    deleteResolve [1, 2, 3] 5 true "USER" "user" = ⟨0, []⟩ := by
  have h2 := (c5_delete_rows_and_event [1, 2, 3] 2 true "USER" "user" (by decide)).2.2
    (by decide)
  have h5 := (c5_delete_rows_and_event [1, 2, 3] 5 true "USER" "user" (by decide)).2.1
    (by decide)
  exact ⟨h2.1, h2.2.1 rfl, h5⟩

/-- Claim C6: a successful add publishes exactly one ADDED event whose
payload carries the newly created record when subscriptions are enabled, and
no event when they are disabled; the created record is returned. -/
theorem c6_add_event {ρ : Type} (createResult : Except String ρ) (newObject : ρ)
    (upperSingular lowerSingular : String) (h : createResult = Except.ok newObject) :
    (addResolve createResult true upperSingular lowerSingular).2 =
      [⟨upperSingular ++ "_ADDED", lowerSingular ++ "Added", newObject⟩] ∧
    (addResolve createResult false upperSingular lowerSingular).2 = [] ∧
    (addResolve createResult true upperSingular lowerSingular).1 =
      Except.ok newObject := by
  subst h
  exact ⟨rfl, rfl, rfl⟩

/-- Witness for the add-event claim on a concrete created record. -/
theorem c6_add_event_witness :
    (addResolve (Except.ok (5 : Int)) true "USER" "user").2 =
      [⟨"USER_ADDED", "userAdded", 5⟩] ∧
    (addResolve (Except.ok (5 : Int)) false "USER" "user").2 = [] :=
  ⟨(c6_add_event (Except.ok 5) 5 "USER" "user" rfl).1,
   (c6_add_event (Except.ok 5) 5 "USER" "user" rfl).2.1⟩

/-- Claim C8: the sensitive credential attribute `contrasena` never appears
among the attribute-derived fields of a generated type, and for an entity
with no associations the output type's and the input type's field names are
exactly the entity's non-sensitive scalar attributes. -/
theorem c8_sensitive_excluded (model : ModelDef) (isInput : Bool) :
    "contrasena" ∉ (attributeFields model ["contrasena"]).map Prod.fst ∧
    (model.associations = [] →
      (∀ a, a ∈ (generateGraphQLTypeFields model isInput).map Prod.fst ↔
        a ∈ model.attributes ∧ a ≠ "contrasena") ∧
      "contrasena" ∉ (generateGraphQLTypeFields model isInput).map Prod.fst) := by
  have hattr : (attributeFields model ["contrasena"]).map Prod.fst =
      model.attributes.filter fun a => !(List.contains ["contrasena"] a) := by
    unfold attributeFields
    rw [List.map_map]
    have hcomp : (Prod.fst ∘ fun a : String => ((a, FieldType.scalar) : String × FieldType)) =
        fun a : String => a := rfl
    rw [hcomp]
    exact List.map_id' _
  have hnotmem : "contrasena" ∉ (attributeFields model ["contrasena"]).map Prod.fst := by
    rw [hattr]
    intro hmem
    rw [List.mem_filter] at hmem
    simp at hmem
  refine ⟨hnotmem, fun hassoc => ?_⟩
  have hfields : (generateGraphQLTypeFields model isInput).map Prod.fst =
      model.attributes.filter fun a => !(List.contains ["contrasena"] a) := by
    unfold generateGraphQLTypeFields generateAssociationFields
    rw [hassoc]
    simp [hattr]
  constructor
  · intro a
    rw [hfields, List.mem_filter]
    simp
  · rw [hfields]
    intro hmem
    rw [List.mem_filter] at hmem
    simp at hmem

/-- Witness for the sensitive-field claim on the association-free model C
extended with a credential attribute. -/
theorem c8_sensitive_excluded_witness :
    "contrasena" ∈ modelU.attributes ∧
    "contrasena" ∉ (generateGraphQLTypeFields modelU true).map Prod.fst ∧
    "mail" ∈ (generateGraphQLTypeFields modelU false).map Prod.fst := by
  refine ⟨by decide, ?_, ?_⟩
  · exact ((c8_sensitive_excluded modelU true).2 rfl).2
  · exact ((c8_sensitive_excluded modelU false).2 rfl).1 "mail" |>.mpr
      ⟨by decide, by decide⟩

end MagicGraph
